import Mathlib

/-!
Verification of the Mergington High School activity-registration service.

The embedding models the persisted database state of the application: the
`activity` table, the `participant` table, and the `activity_participants`
association table (src/models.py), together with the three operations of
src/app.py: `startup_event` (seeding), `signup_for_activity` and
`unregister_from_activity`.  Each SQLAlchemy relationship view
(`Activity.participants`, `Participant.activities`) is derived from the
single association relation, exactly as `back_populates` over one
secondary table does.
-/

namespace Mergington

/-- Row of the `activity` table: id, name, descriptive fields, capacity
(src/models.py, class Activity). -/
structure Activity where
  id : Nat
  name : String
  description : String
  schedule : String
  max_participants : Nat
deriving Repr, DecidableEq

/-- The persisted database state: the `activity` table, the `participant`
table (rows are just the email primary key), and the
`activity_participants` association table whose rows are
(activity_id, participant_email) pairs. -/
structure DBState where
  activities : List Activity
  participants : List String
  rel : List (Nat × String)
deriving Repr, DecidableEq

/-- The database before any table has been populated. -/
def emptyDB : DBState := ⟨[], [], []⟩

/-- The relationship view `Activity.participants`: emails linked to the
activity through the association table. -/
def participantsOf (s : DBState) (aid : Nat) : List String :=
  (s.rel.filter (fun r => r.1 == aid)).map (fun r => r.2)

/-- The relationship view `Participant.activities`: activity ids linked to
the email through the association table. -/
def activitiesOf (s : DBState) (email : String) : List Nat :=
  (s.rel.filter (fun r => r.2 == email)).map (fun r => r.1)

/-- db.query(Activity).filter(Activity.name == activity_name).first() -/
def findActivity (s : DBState) (name : String) : Option Activity :=
  s.activities.find? (fun a => a.name == name)

/-- db.query(Participant).filter(Participant.email == email).first() -/
def findParticipant (s : DBState) (email : String) : Option String :=
  s.participants.find? (fun e => e == email)

/-- An HTTPException as raised by the endpoints: status code and detail. -/
structure HTTPError where
  status_code : Nat
  detail : String
deriving Repr, DecidableEq

/-- POST /activities/{activity_name}/signup (src/app.py,
signup_for_activity).  Returns the response (or raised error) together
with the database state after the request; error paths raise before any
mutation, so they leave the state as received. -/
def signup_for_activity (s : DBState) (activity_name email : String) :
    Except HTTPError String × DBState :=
  match findActivity s activity_name with
  | none => (.error ⟨404, "Activity not found"⟩, s)
  | some activity =>
    if (findParticipant s email).isSome && (activitiesOf s email).contains activity.id then
      (.error ⟨400, "Student is already signed up"⟩, s)
    else if activity.max_participants ≤ (participantsOf s activity.id).length then
      (.error ⟨400, "Activity is full"⟩, s)
    else
      let s1 :=
        if (findParticipant s email).isSome then s
        else { s with participants := s.participants ++ [email] }
      let s2 := { s1 with rel := s1.rel ++ [(activity.id, email)] }
      (.ok ("Signed up " ++ email ++ " for " ++ activity_name), s2)

/-- DELETE /activities/{activity_name}/unregister (src/app.py,
unregister_from_activity). -/
def unregister_from_activity (s : DBState) (activity_name email : String) :
    Except HTTPError String × DBState :=
  match findActivity s activity_name with
  | none => (.error ⟨404, "Activity not found"⟩, s)
  | some activity =>
    if (findParticipant s email).isSome && (activitiesOf s email).contains activity.id then
      (.ok ("Unregistered " ++ email ++ " from " ++ activity_name),
       { s with rel := s.rel.erase (activity.id, email) })
    else
      (.error ⟨400, "Student is not signed up for this activity"⟩, s)

/-- One entry of the INITIAL_ACTIVITIES catalog in src/app.py. -/
structure ActivityData where
  name : String
  description : String
  schedule : String
  max_participants : Nat
  participants : List String
deriving Repr, DecidableEq

/-- The INITIAL_ACTIVITIES list of src/app.py. -/
def INITIAL_ACTIVITIES : List ActivityData := [
  ⟨"Chess Club", "Learn strategies and compete in chess tournaments",
   "Fridays, 3:30 PM - 5:00 PM", 12,
   ["michael@mergington.edu", "daniel@mergington.edu"]⟩,
  ⟨"Programming Class", "Learn programming fundamentals and build software projects",
   "Tuesdays and Thursdays, 3:30 PM - 4:30 PM", 20,
   ["emma@mergington.edu", "sophia@mergington.edu"]⟩,
  ⟨"Gym Class", "Physical education and sports activities",
   "Mondays, Wednesdays, Fridays, 2:00 PM - 3:00 PM", 30,
   ["john@mergington.edu", "olivia@mergington.edu"]⟩,
  ⟨"Soccer Team", "Join the school soccer team and compete in matches",
   "Tuesdays and Thursdays, 4:00 PM - 5:30 PM", 22,
   ["liam@mergington.edu", "noah@mergington.edu"]⟩,
  ⟨"Basketball Team", "Practice and play basketball with the school team",
   "Wednesdays and Fridays, 3:30 PM - 5:00 PM", 15,
   ["ava@mergington.edu", "mia@mergington.edu"]⟩,
  ⟨"Art Club", "Explore your creativity through painting and drawing",
   "Thursdays, 3:30 PM - 5:00 PM", 15,
   ["amelia@mergington.edu", "harper@mergington.edu"]⟩,
  ⟨"Drama Club", "Act, direct, and produce plays and performances",
   "Mondays and Wednesdays, 4:00 PM - 5:30 PM", 20,
   ["ella@mergington.edu", "scarlett@mergington.edu"]⟩,
  ⟨"Math Club", "Solve challenging problems and participate in math competitions",
   "Tuesdays, 3:30 PM - 4:30 PM", 10,
   ["james@mergington.edu", "benjamin@mergington.edu"]⟩,
  ⟨"Debate Team", "Develop public speaking and argumentation skills",
   "Fridays, 4:00 PM - 5:30 PM", 12,
   ["charlotte@mergington.edu", "henry@mergington.edu"]⟩]

/-- Seed one catalog entry: insert the activity row (ids are assigned by
autoincrement, modelled as one past the current row count), create each
listed participant if missing, and link it to the activity. -/
def seedActivity (s : DBState) (d : ActivityData) : DBState :=
  let aid := s.activities.length + 1
  let s1 := { s with activities :=
    s.activities ++ [⟨aid, d.name, d.description, d.schedule, d.max_participants⟩] }
  d.participants.foldl (fun st e =>
    let st1 := if st.participants.contains e then st
               else { st with participants := st.participants ++ [e] }
    { st1 with rel := st1.rel ++ [(aid, e)] }) s1

/-- The startup_event handler of src/app.py: seed the database from
INITIAL_ACTIVITIES only when the activity table is empty. -/
def startup_event (s : DBState) : DBState :=
  if s.activities.length == 0 then INITIAL_ACTIVITIES.foldl seedActivity s
  else s

/-- The states the persisted database can be in: the seeded database, and
anything obtained from a reachable state by a successful sign-up or
unregister request (failed requests leave the state untouched, so they add
no states). -/
inductive Reachable : DBState → Prop where
  | seeded : Reachable (startup_event emptyDB)
  | signup (s : DBState) (n e m : String) (s' : DBState) : Reachable s →
      signup_for_activity s n e = (.ok m, s') → Reachable s'
  | unregister (s : DBState) (n e m : String) (s' : DBState) : Reachable s →
      unregister_from_activity s n e = (.ok m, s') → Reachable s'

/-! ### Basic facts about the relationship views and lookups -/

@[simp]
lemma mem_participantsOf {s : DBState} {aid : Nat} {e : String} :
    e ∈ participantsOf s aid ↔ (aid, e) ∈ s.rel := by
  constructor
  · intro h
    obtain ⟨r, hr, he⟩ := List.mem_map.mp h
    obtain ⟨hm, hf⟩ := List.mem_filter.mp hr
    obtain ⟨i, x⟩ := r
    simp only [beq_iff_eq] at hf
    cases hf; cases he; exact hm
  · intro h
    exact List.mem_map.mpr ⟨(aid, e), List.mem_filter.mpr ⟨h, by simp⟩, rfl⟩

@[simp]
lemma mem_activitiesOf {s : DBState} {aid : Nat} {e : String} :
    aid ∈ activitiesOf s e ↔ (aid, e) ∈ s.rel := by
  constructor
  · intro h
    obtain ⟨r, hr, hi⟩ := List.mem_map.mp h
    obtain ⟨hm, hf⟩ := List.mem_filter.mp hr
    obtain ⟨i, x⟩ := r
    simp only [beq_iff_eq] at hf
    cases hf; cases hi; exact hm
  · intro h
    exact List.mem_map.mpr ⟨(aid, e), List.mem_filter.mpr ⟨h, by simp⟩, rfl⟩

lemma findParticipant_isSome {s : DBState} {e : String} :
    (findParticipant s e).isSome ↔ e ∈ s.participants := by
  simp only [findParticipant, List.find?_isSome, beq_iff_eq]
  constructor
  · rintro ⟨x, hx, rfl⟩; exact hx
  · intro h; exact ⟨e, h, rfl⟩

lemma findActivity_mem {s : DBState} {n : String} {a : Activity}
    (h : findActivity s n = some a) : a ∈ s.activities ∧ a.name = n := by
  refine ⟨List.mem_of_find?_eq_some h, ?_⟩
  have := List.find?_some h
  simpa using this

lemma contains_activitiesOf (s : DBState) (e : String) (aid : Nat) :
    (activitiesOf s e).contains aid = decide ((aid, e) ∈ s.rel) := by
  by_cases hr : (aid, e) ∈ s.rel <;> simp [List.contains, List.elem_iff, hr]

lemma findParticipant_isSome_eq (s : DBState) (e : String) :
    (findParticipant s e).isSome = decide (e ∈ s.participants) := by
  by_cases hp : e ∈ s.participants
  · simp [findParticipant_isSome.mpr hp, hp]
  · have hnone : (findParticipant s e).isSome = false := by
      rw [Bool.eq_false_iff]
      exact fun h => hp (findParticipant_isSome.mp h)
    simp [hnone, hp]

/-- The sign-up endpoint, rephrased with propositional guards: the guard
order (missing activity, duplicate registration, capacity) is exactly that
of the source. -/
lemma signup_eq (s : DBState) (n e : String) :
    signup_for_activity s n e =
      match findActivity s n with
      | none => (.error ⟨404, "Activity not found"⟩, s)
      | some a =>
        if e ∈ s.participants ∧ (a.id, e) ∈ s.rel then
          (.error ⟨400, "Student is already signed up"⟩, s)
        else if a.max_participants ≤ (participantsOf s a.id).length then
          (.error ⟨400, "Activity is full"⟩, s)
        else
          (.ok ("Signed up " ++ e ++ " for " ++ n),
           { s with
             participants :=
               if e ∈ s.participants then s.participants else s.participants ++ [e],
             rel := s.rel ++ [(a.id, e)] }) := by
  unfold signup_for_activity
  cases hfa : findActivity s n with
  | none => rfl
  | some a =>
    by_cases hp : e ∈ s.participants <;> by_cases hr : (a.id, e) ∈ s.rel <;>
      by_cases h2 : a.max_participants ≤ (participantsOf s a.id).length <;>
      simp [contains_activitiesOf, findParticipant_isSome_eq, hp, hr, h2]

/-- The unregister endpoint, rephrased with propositional guards. -/
lemma unregister_eq (s : DBState) (n e : String) :
    unregister_from_activity s n e =
      match findActivity s n with
      | none => (.error ⟨404, "Activity not found"⟩, s)
      | some a =>
        if e ∈ s.participants ∧ (a.id, e) ∈ s.rel then
          (.ok ("Unregistered " ++ e ++ " from " ++ n),
           { s with rel := s.rel.erase (a.id, e) })
        else
          (.error ⟨400, "Student is not signed up for this activity"⟩, s) := by
  unfold unregister_from_activity
  cases hfa : findActivity s n with
  | none => rfl
  | some a =>
    by_cases hp : e ∈ s.participants <;> by_cases hr : (a.id, e) ∈ s.rel <;>
      simp [contains_activitiesOf, findParticipant_isSome_eq, hp, hr]

/-- Everything a successful sign-up establishes: the guards that were
passed and the exact shape of the resulting state. -/
lemma signup_ok_elim {s : DBState} {n e m : String} {s' : DBState}
    (h : signup_for_activity s n e = (.ok m, s')) :
    ∃ a, findActivity s n = some a ∧
      ¬ (e ∈ s.participants ∧ (a.id, e) ∈ s.rel) ∧
      (participantsOf s a.id).length < a.max_participants ∧
      m = "Signed up " ++ e ++ " for " ++ n ∧
      s' = { s with
        participants :=
          if e ∈ s.participants then s.participants else s.participants ++ [e],
        rel := s.rel ++ [(a.id, e)] } := by
  rw [signup_eq] at h
  cases hfa : findActivity s n with
  | none => rw [hfa] at h; simp at h
  | some a =>
    rw [hfa] at h
    simp only [] at h
    by_cases h1 : e ∈ s.participants ∧ (a.id, e) ∈ s.rel
    · rw [if_pos h1] at h; simp at h
    · rw [if_neg h1] at h
      by_cases h2 : a.max_participants ≤ (participantsOf s a.id).length
      · rw [if_pos h2] at h; simp at h
      · rw [if_neg h2] at h
        simp only [Prod.mk.injEq, Except.ok.injEq] at h
        exact ⟨a, rfl, h1, lt_of_not_le h2, h.1.symm, h.2.symm⟩

/-- Everything a successful unregister establishes. -/
lemma unregister_ok_elim {s : DBState} {n e m : String} {s' : DBState}
    (h : unregister_from_activity s n e = (.ok m, s')) :
    ∃ a, findActivity s n = some a ∧
      e ∈ s.participants ∧ (a.id, e) ∈ s.rel ∧
      m = "Unregistered " ++ e ++ " from " ++ n ∧
      s' = { s with rel := s.rel.erase (a.id, e) } := by
  rw [unregister_eq] at h
  cases hfa : findActivity s n with
  | none => rw [hfa] at h; simp at h
  | some a =>
    rw [hfa] at h
    simp only [] at h
    by_cases h1 : e ∈ s.participants ∧ (a.id, e) ∈ s.rel
    · rw [if_pos h1] at h
      simp only [Prod.mk.injEq, Except.ok.injEq] at h
      exact ⟨a, rfl, h1.1, h1.2, h.1.symm, h.2.symm⟩
    · rw [if_neg h1] at h; simp at h

/-! ### The reachable-state invariant -/

/-- Well-formedness of a database state: distinct activity ids (primary
key of the `activity` table), the capacity invariant, referential
integrity of association rows into the `participant` table (foreign key),
and no duplicate association rows (composite primary key). -/
def StateWF (s : DBState) : Prop :=
  (s.activities.map (fun a => a.id)).Nodup ∧
  (∀ a ∈ s.activities, (participantsOf s a.id).length ≤ a.max_participants) ∧
  (∀ r ∈ s.rel, r.2 ∈ s.participants) ∧
  s.rel.Nodup

lemma wf_seeded : StateWF (startup_event emptyDB) :=
  ⟨by decide, by decide, by decide, by decide⟩

lemma participantsOf_append (s : DBState) (P : List String) (aid : Nat)
    (e : String) (x : Nat) :
    participantsOf ⟨s.activities, P, s.rel ++ [(aid, e)]⟩ x =
      participantsOf s x ++ (if aid = x then [e] else []) := by
  by_cases hx : aid = x <;> simp [participantsOf, List.filter_append, hx]

lemma wf_signup {s : DBState} {n e m : String} {s' : DBState}
    (hwf : StateWF s) (h : signup_for_activity s n e = (.ok m, s')) :
    StateWF s' := by
  obtain ⟨a, hfa, hdup, hcap, -, hs'⟩ := signup_ok_elim h
  obtain ⟨hids, hcaps, hfk, hnd⟩ := hwf
  obtain ⟨hamem, -⟩ := findActivity_mem hfa
  have hpair : (a.id, e) ∉ s.rel := fun hr => hdup ⟨hfk _ hr, hr⟩
  have hsub : ∀ p ∈ s.participants,
      p ∈ (if e ∈ s.participants then s.participants else s.participants ++ [e]) := by
    intro p hp
    by_cases hep : e ∈ s.participants
    · simpa [hep] using hp
    · simp [hep, List.mem_append, hp]
  subst hs'
  refine ⟨hids, ?_, ?_, ?_⟩
  · intro b hb
    rw [participantsOf_append]
    by_cases hid : a.id = b.id
    · have hab : a = b := List.inj_on_of_nodup_map hids hamem hb hid
      subst hab
      rw [if_pos hid, List.length_append, List.length_singleton]
      omega
    · simp only [if_neg hid, List.append_nil]
      exact hcaps b hb
  · intro r hr
    rcases List.mem_append.mp hr with hold | hnew
    · exact hsub _ (hfk _ hold)
    · have : r = (a.id, e) := by simpa using hnew
      subst this
      by_cases hep : e ∈ s.participants
      · simp [hep]
      · simp [hep]
  · rw [List.nodup_append]
    refine ⟨hnd, List.nodup_singleton _, ?_⟩
    intro x hx hx'
    have : x = (a.id, e) := by simpa using hx'
    subst this
    exact hpair hx

lemma wf_unregister {s : DBState} {n e m : String} {s' : DBState}
    (hwf : StateWF s) (h : unregister_from_activity s n e = (.ok m, s')) :
    StateWF s' := by
  obtain ⟨a, hfa, hp, hr, -, hs'⟩ := unregister_ok_elim h
  obtain ⟨hids, hcaps, hfk, hnd⟩ := hwf
  subst hs'
  have hsub : (s.rel.erase (a.id, e)).Sublist s.rel := List.erase_sublist _ _
  refine ⟨hids, ?_, ?_, ?_⟩
  · intro b hb
    have hsub2 : (participantsOf ⟨s.activities, s.participants,
        s.rel.erase (a.id, e)⟩ b.id).Sublist (participantsOf s b.id) :=
      List.Sublist.map _ (List.Sublist.filter _ hsub)
    exact le_trans hsub2.length_le (hcaps b hb)
  · intro r hrm
    exact hfk _ (hsub.mem hrm)
  · exact hnd.sublist hsub

/-- Every reachable database state is well-formed. -/
lemma reachable_wf {s : DBState} (h : Reachable s) : StateWF s := by
  induction h with
  | seeded => exact wf_seeded
  | signup s n e m s' _ hstep ih => exact wf_signup ih hstep
  | unregister s n e m s' _ hstep ih => exact wf_unregister ih hstep

lemma filter_erase_of_neg {l : List (Nat × String)} {p : Nat × String}
    {q : Nat × String → Bool} (hq : q p = false) :
    (l.erase p).filter q = l.filter q := by
  induction l with
  | nil => rfl
  | cons b t ih =>
    by_cases hb : b = p
    · subst hb
      rw [List.erase_cons_head, List.filter_cons_of_neg (by simp [hq])]
    · rw [List.erase_cons_tail (by simp [hb]), List.filter_cons, List.filter_cons, ih]

/-- Deleting the association row of one activity leaves every other
activity's roster list unchanged. -/
lemma participantsOf_erase_ne (s : DBState) (aid : Nat) (e : String) (x : Nat)
    (hx : aid ≠ x) :
    participantsOf ⟨s.activities, s.participants, s.rel.erase (aid, e)⟩ x =
      participantsOf s x := by
  simp only [participantsOf]
  rw [filter_erase_of_neg (by simp [hx])]

/-! ### The claims -/

/-- C1: In every reachable state — after startup seeding and any sequence
of sign-up and unregister calls (failed calls leave the state untouched) —
every activity's roster size is at most its max_participants. -/
theorem claim_capacity_invariant (s : DBState) (h : Reachable s) :
    ∀ a ∈ s.activities, (participantsOf s a.id).length ≤ a.max_participants :=
  (reachable_wf h).2.1

/-- Witness for C1 at the seeded database and the Chess Club row. -/
theorem claim_capacity_invariant_witness :
    (participantsOf (startup_event emptyDB) 1).length ≤ 12 := by
  have h := claim_capacity_invariant (startup_event emptyDB) Reachable.seeded
    (⟨1, "Chess Club", "Learn strategies and compete in chess tournaments",
      "Fridays, 3:30 PM - 5:00 PM", 12⟩ : Activity) (by decide)
  exact h

/-- C3: sign-up fails with 404 exactly when the activity does not exist;
with the activity present, a registered pair yields the already-signed-up
conflict (taking precedence over the capacity check), an unregistered pair
with a full roster yields the activity-full conflict, and otherwise the
call succeeds.  The foreign-key hypothesis states that association rows
only mention existing participants, as the database schema guarantees. -/
theorem claim_signup_error_order (s : DBState) (n e : String)
    (hfk : ∀ r ∈ s.rel, r.2 ∈ s.participants) :
    ((signup_for_activity s n e).1 = .error ⟨404, "Activity not found"⟩ ↔
      findActivity s n = none) ∧
    ∀ a, findActivity s n = some a →
      ((a.id, e) ∈ s.rel →
        (signup_for_activity s n e).1 =
          .error ⟨400, "Student is already signed up"⟩) ∧
      ((a.id, e) ∉ s.rel → a.max_participants ≤ (participantsOf s a.id).length →
        (signup_for_activity s n e).1 = .error ⟨400, "Activity is full"⟩) ∧
      ((a.id, e) ∉ s.rel → (participantsOf s a.id).length < a.max_participants →
        (signup_for_activity s n e).1 =
          .ok ("Signed up " ++ e ++ " for " ++ n)) := by
  cases hfa : findActivity s n with
  | none =>
    rw [signup_eq, hfa]
    exact ⟨by simp, fun a ha => by cases ha⟩
  | some a' =>
    rw [signup_eq, hfa]
    simp only []
    constructor
    · constructor
      · intro herr
        exfalso
        split_ifs at herr <;> simp_all
      · intro hnone; cases hnone
    · intro a ha
      obtain rfl : a' = a := by injection ha
      refine ⟨?_, ?_, ?_⟩
      · intro hr
        rw [if_pos ⟨hfk _ hr, hr⟩]
      · intro hnr hfull
        rw [if_neg (fun hc => hnr hc.2), if_pos hfull]
      · intro hnr hlt
        rw [if_neg (fun hc => hnr hc.2), if_neg (not_le.mpr hlt)]

/-- Witness for C3: a pre-seeded member signing up again is rejected as a
duplicate on the seeded database. -/
theorem claim_signup_error_order_witness :
    (signup_for_activity (startup_event emptyDB) "Chess Club"
      "michael@mergington.edu").1 =
      .error ⟨400, "Student is already signed up"⟩ := by
  have h := claim_signup_error_order (startup_event emptyDB) "Chess Club"
    "michael@mergington.edu" (by decide)
  exact (h.2 (⟨1, "Chess Club", "Learn strategies and compete in chess tournaments",
    "Fridays, 3:30 PM - 5:00 PM", 12⟩ : Activity) (by decide)).1 (by decide)

/-- C4: when the activity exists, the pair is not registered and there is
room, sign-up succeeds: the pair is registered in both directional views,
a participant record for the email exists afterwards (appended by this
call when previously unknown), and the confirmation message names both the
email and the activity. -/
theorem claim_signup_success (s : DBState) (n e : String) (a : Activity)
    (hfa : findActivity s n = some a) (hnr : (a.id, e) ∉ s.rel)
    (hlt : (participantsOf s a.id).length < a.max_participants) :
    (signup_for_activity s n e).1 = .ok ("Signed up " ++ e ++ " for " ++ n) ∧
    e ∈ participantsOf (signup_for_activity s n e).2 a.id ∧
    a.id ∈ activitiesOf (signup_for_activity s n e).2 e ∧
    e ∈ (signup_for_activity s n e).2.participants ∧
    (e ∉ s.participants →
      (signup_for_activity s n e).2.participants = s.participants ++ [e]) := by
  rw [signup_eq, hfa]
  simp only []
  rw [if_neg (fun hc => hnr hc.2), if_neg (not_le.mpr hlt)]
  refine ⟨rfl, by simp, by simp, ?_, ?_⟩
  · by_cases hep : e ∈ s.participants <;> simp [hep]
  · intro hep; simp [hep]

/-- Witness for C4: a new student joins the Chess Club on the seeded
database. -/
theorem claim_signup_success_witness :
    (signup_for_activity (startup_event emptyDB) "Chess Club"
      "new@mergington.edu").1 =
      .ok ("Signed up " ++ "new@mergington.edu" ++ " for " ++ "Chess Club") ∧
    "new@mergington.edu" ∈ participantsOf
      (signup_for_activity (startup_event emptyDB) "Chess Club"
        "new@mergington.edu").2 1 := by
  have h := claim_signup_success (startup_event emptyDB) "Chess Club"
    "new@mergington.edu"
    (⟨1, "Chess Club", "Learn strategies and compete in chess tournaments",
      "Fridays, 3:30 PM - 5:00 PM", 12⟩ : Activity)
    (by decide) (by decide) (by decide)
  exact ⟨h.1, h.2.1⟩

/-- C5: unregister fails with 404 exactly when the activity does not
exist; with the activity present it fails with the not-signed-up conflict
when the participant record is missing or the pair is not registered, and
otherwise succeeds and removes the pair from both directional views.  The
no-duplicate hypothesis is the composite primary key of the association
table. -/
theorem claim_unregister_spec (s : DBState) (n e : String)
    (hnd : s.rel.Nodup) :
    ((unregister_from_activity s n e).1 = .error ⟨404, "Activity not found"⟩ ↔
      findActivity s n = none) ∧
    ∀ a, findActivity s n = some a →
      ((e ∉ s.participants ∨ (a.id, e) ∉ s.rel) →
        (unregister_from_activity s n e).1 =
          .error ⟨400, "Student is not signed up for this activity"⟩) ∧
      (e ∈ s.participants → (a.id, e) ∈ s.rel →
        (unregister_from_activity s n e).1 =
          .ok ("Unregistered " ++ e ++ " from " ++ n) ∧
        e ∉ participantsOf (unregister_from_activity s n e).2 a.id ∧
        a.id ∉ activitiesOf (unregister_from_activity s n e).2 e) := by
  cases hfa : findActivity s n with
  | none =>
    rw [unregister_eq, hfa]
    exact ⟨by simp, fun a ha => by cases ha⟩
  | some a' =>
    rw [unregister_eq, hfa]
    simp only []
    constructor
    · constructor
      · intro herr
        exfalso
        split_ifs at herr
        simp_all
      · intro hnone; cases hnone
    · intro a ha
      obtain rfl : a' = a := by injection ha
      constructor
      · intro hno
        rw [if_neg (fun hc => by rcases hno with h | h <;> [exact h hc.1; exact h hc.2])]
      · intro hp hr
        rw [if_pos ⟨hp, hr⟩]
        refine ⟨rfl, ?_, ?_⟩
        · rw [mem_participantsOf]
          intro hmem
          exact absurd ((hnd.mem_erase_iff.mp hmem).1) (by simp)
        · rw [mem_activitiesOf]
          intro hmem
          exact absurd ((hnd.mem_erase_iff.mp hmem).1) (by simp)

/-- Witness for C5: a seeded member leaves the Chess Club on the seeded
database. -/
theorem claim_unregister_spec_witness :
    (unregister_from_activity (startup_event emptyDB) "Chess Club"
      "michael@mergington.edu").1 =
      .ok ("Unregistered " ++ "michael@mergington.edu" ++ " from " ++ "Chess Club") ∧
    "michael@mergington.edu" ∉ participantsOf
      (unregister_from_activity (startup_event emptyDB) "Chess Club"
        "michael@mergington.edu").2 1 := by
  have h := claim_unregister_spec (startup_event emptyDB) "Chess Club"
    "michael@mergington.edu" (by decide)
  have h2 := (h.2 (⟨1, "Chess Club", "Learn strategies and compete in chess tournaments",
    "Fridays, 3:30 PM - 5:00 PM", 12⟩ : Activity) (by decide)).2 (by decide) (by decide)
  exact ⟨h2.1, h2.2.1⟩

/-- C6: every failing sign-up or unregister request leaves the database
state exactly as it was: no association row, activity row or participant
row is added, removed or changed, even when the failing sign-up named a
previously unknown email. -/
theorem claim_failure_no_mutation :
    (∀ (s : DBState) (n e : String) (err : HTTPError),
      (signup_for_activity s n e).1 = .error err →
        (signup_for_activity s n e).2 = s) ∧
    (∀ (s : DBState) (n e : String) (err : HTTPError),
      (unregister_from_activity s n e).1 = .error err →
        (unregister_from_activity s n e).2 = s) := by
  constructor
  · intro s n e err herr
    rw [signup_eq] at herr ⊢
    cases hfa : findActivity s n with
    | none => rfl
    | some a =>
      rw [hfa] at herr
      simp only [] at herr ⊢
      by_cases h1 : e ∈ s.participants ∧ (a.id, e) ∈ s.rel
      · rw [if_pos h1]
      · rw [if_neg h1] at herr ⊢
        by_cases h2 : a.max_participants ≤ (participantsOf s a.id).length
        · rw [if_pos h2]
        · rw [if_neg h2] at herr
          exact absurd herr (by simp)
  · intro s n e err herr
    rw [unregister_eq] at herr ⊢
    cases hfa : findActivity s n with
    | none => rfl
    | some a =>
      rw [hfa] at herr
      simp only [] at herr ⊢
      by_cases h1 : e ∈ s.participants ∧ (a.id, e) ∈ s.rel
      · rw [if_pos h1] at herr
        exact absurd herr (by simp)
      · rw [if_neg h1]

/-- Witness for C6: a sign-up for a nonexistent activity and an unregister
of a never-registered student both leave the seeded database unchanged. -/
theorem claim_failure_no_mutation_witness :
    (signup_for_activity (startup_event emptyDB) "Unknown Club"
      "x@mergington.edu").2 = startup_event emptyDB ∧
    (unregister_from_activity (startup_event emptyDB) "Chess Club"
      "x@mergington.edu").2 = startup_event emptyDB := by
  constructor
  · exact claim_failure_no_mutation.1 (startup_event emptyDB) "Unknown Club"
      "x@mergington.edu" ⟨404, "Activity not found"⟩ rfl
  · exact claim_failure_no_mutation.2 (startup_event emptyDB) "Chess Club"
      "x@mergington.edu" ⟨400, "Student is not signed up for this activity"⟩ rfl

/-- C7: the registration relation is referentially symmetric in every
state: an email is in an activity's participants view exactly when the
activity's id is in that participant's activities view — both views are
projections of the single association table. -/
theorem claim_registration_symmetry (s : DBState) (aid : Nat) (e : String) :
    e ∈ participantsOf s aid ↔ aid ∈ activitiesOf s e := by
  rw [mem_participantsOf, mem_activitiesOf]

/-- The database state right after a fresh student signs up for the Chess
Club on the seeded database; used by several witnesses below. -/
def chessAfterSignup : DBState :=
  (signup_for_activity (startup_event emptyDB) "Chess Club"
    "new@mergington.edu").2

/-- C8: seeding is idempotent — running startup on the already-seeded
database is the identity, and the seeded database has exactly one activity
row per catalog entry (in order, with the catalog capacities) and exactly
one participant row per distinct catalog email. -/
theorem claim_seeding_idempotent :
    startup_event (startup_event emptyDB) = startup_event emptyDB ∧
    (startup_event emptyDB).activities.map (fun a => a.name) =
      INITIAL_ACTIVITIES.map (fun d => d.name) ∧
    ((startup_event emptyDB).activities.map (fun a => a.name)).Nodup ∧
    (startup_event emptyDB).activities.map (fun a => a.max_participants) =
      INITIAL_ACTIVITIES.map (fun d => d.max_participants) ∧
    (startup_event emptyDB).participants =
      INITIAL_ACTIVITIES.flatMap (fun d => d.participants) ∧
    (startup_event emptyDB).participants.Nodup ∧
    (∀ s : DBState, s.activities ≠ [] → startup_event s = s) :=
  ⟨rfl, rfl, by decide, rfl, rfl, by decide, fun s h => by
    simp [startup_event, List.length_eq_zero, h]⟩

/-- Witness for C8: restarting on a database that already holds data (here
the seeded database after one extra sign-up) changes nothing. -/
theorem claim_seeding_idempotent_witness :
    chessAfterSignup.activities ≠ [] ∧
    startup_event chessAfterSignup = chessAfterSignup :=
  ⟨by decide,
   claim_seeding_idempotent.2.2.2.2.2.2 chessAfterSignup (by decide)⟩

/-- C9: immediately after a successful sign-up, unregistering the same
pair always succeeds, removes the pair from the relation, and restores the
association table to exactly its value before the sign-up.  The
foreign-key hypothesis is the schema constraint that association rows only
mention existing participants. -/
theorem claim_signup_unregister_roundtrip (s : DBState) (n e m : String)
    (s1 : DBState) (a : Activity)
    (hfk : ∀ r ∈ s.rel, r.2 ∈ s.participants)
    (hfa : findActivity s n = some a)
    (hok : signup_for_activity s n e = (.ok m, s1)) :
    (unregister_from_activity s1 n e).1 =
      .ok ("Unregistered " ++ e ++ " from " ++ n) ∧
    (unregister_from_activity s1 n e).2.rel = s.rel ∧
    (a.id, e) ∉ (unregister_from_activity s1 n e).2.rel := by
  obtain ⟨a', hfa', hdup, -, -, hs1⟩ := signup_ok_elim hok
  obtain rfl : a = a' := by injection hfa.symm.trans hfa'
  have hpair : (a.id, e) ∉ s.rel := fun hr => hdup ⟨hfk _ hr, hr⟩
  have herase : (s.rel ++ [(a.id, e)]).erase (a.id, e) = s.rel := by
    rw [List.erase_append_right _ hpair, List.erase_cons_head, List.append_nil]
  subst hs1
  have hfa1 : findActivity
      ⟨s.activities,
       if e ∈ s.participants then s.participants else s.participants ++ [e],
       s.rel ++ [(a.id, e)]⟩ n = some a := hfa
  rw [unregister_eq, hfa1]
  simp only []
  have hp1 : e ∈ (if e ∈ s.participants then s.participants
      else s.participants ++ [e]) := by
    by_cases hep : e ∈ s.participants <;> simp [hep]
  have hr1 : (a.id, e) ∈ s.rel ++ [(a.id, e)] := by simp
  rw [if_pos ⟨hp1, hr1⟩]
  refine ⟨rfl, herase, ?_⟩
  show (a.id, e) ∉ (s.rel ++ [(a.id, e)]).erase (a.id, e)
  rw [herase]
  exact hpair

/-- Witness for C9: a new student joins and immediately leaves the Chess
Club on the seeded database; the association table returns to its seeded
value. -/
theorem claim_signup_unregister_roundtrip_witness :
    (unregister_from_activity chessAfterSignup "Chess Club"
      "new@mergington.edu").1 =
      .ok ("Unregistered " ++ "new@mergington.edu" ++ " from " ++ "Chess Club") ∧
    (unregister_from_activity chessAfterSignup "Chess Club"
      "new@mergington.edu").2.rel = (startup_event emptyDB).rel ∧
    (1, "new@mergington.edu") ∉ (unregister_from_activity chessAfterSignup
      "Chess Club" "new@mergington.edu").2.rel := by
  have h := claim_signup_unregister_roundtrip (startup_event emptyDB)
    "Chess Club" "new@mergington.edu"
    ("Signed up " ++ "new@mergington.edu" ++ " for " ++ "Chess Club")
    chessAfterSignup
    (⟨1, "Chess Club", "Learn strategies and compete in chess tournaments",
      "Fridays, 3:30 PM - 5:00 PM", 12⟩ : Activity)
    (by decide) (by decide) rfl
  exact ⟨h.1, h.2.1, h.2.2⟩

/-- C10: a successful sign-up or unregister touches the relation only at
the pair named by its arguments: the activity table (hence every
activity's name, description, schedule and capacity) is unchanged, every
other association row is unchanged, every other activity's roster list is
unchanged, and the participant table changes at most by appending the
signing-up email. -/
theorem claim_success_frame :
    (∀ (s : DBState) (n e : String) (a : Activity) (m : String) (s' : DBState),
      findActivity s n = some a → signup_for_activity s n e = (.ok m, s') →
      s'.activities = s.activities ∧
      (∀ r : Nat × String, r ≠ (a.id, e) → (r ∈ s'.rel ↔ r ∈ s.rel)) ∧
      (∀ x : Nat, x ≠ a.id → participantsOf s' x = participantsOf s x) ∧
      (∀ p : String, p ∈ s'.participants ↔ (p ∈ s.participants ∨ p = e))) ∧
    (∀ (s : DBState) (n e : String) (a : Activity) (m : String) (s' : DBState),
      findActivity s n = some a → unregister_from_activity s n e = (.ok m, s') →
      s'.activities = s.activities ∧ s'.participants = s.participants ∧
      (∀ r : Nat × String, r ≠ (a.id, e) → (r ∈ s'.rel ↔ r ∈ s.rel)) ∧
      (∀ x : Nat, x ≠ a.id → participantsOf s' x = participantsOf s x)) := by
  constructor
  · intro s n e a m s' hfa hok
    obtain ⟨a', hfa', -, -, -, hs1⟩ := signup_ok_elim hok
    obtain rfl : a = a' := by injection hfa.symm.trans hfa'
    subst hs1
    refine ⟨rfl, ?_, ?_, ?_⟩
    · intro r hr
      simp [List.mem_append, hr]
    · intro x hx
      rw [participantsOf_append, if_neg (fun h => hx h.symm), List.append_nil]
    · intro p
      by_cases hep : e ∈ s.participants
      · rw [if_pos hep]
        constructor
        · exact fun h => Or.inl h
        · rintro (h | rfl)
          · exact h
          · exact hep
      · rw [if_neg hep]
        simp [List.mem_append]
  · intro s n e a m s' hfa hok
    obtain ⟨a', hfa', -, -, -, hs1⟩ := unregister_ok_elim hok
    obtain rfl : a = a' := by injection hfa.symm.trans hfa'
    subst hs1
    refine ⟨rfl, rfl, ?_, ?_⟩
    · intro r hr
      exact List.mem_erase_of_ne hr
    · intro x hx
      exact participantsOf_erase_ne s a.id e x (fun h => hx h.symm)

/-- Witness for C10: after a new Chess Club sign-up the activity table is
unchanged and the Math Club roster row is untouched; after a Chess Club
unregister the participant table is unchanged. -/
theorem claim_success_frame_witness :
    (signup_for_activity (startup_event emptyDB) "Chess Club"
      "new@mergington.edu").2.activities = (startup_event emptyDB).activities ∧
    ((8, "james@mergington.edu") ∈ (signup_for_activity (startup_event emptyDB)
      "Chess Club" "new@mergington.edu").2.rel ↔
      (8, "james@mergington.edu") ∈ (startup_event emptyDB).rel) ∧
    (unregister_from_activity (startup_event emptyDB) "Chess Club"
      "michael@mergington.edu").2.participants =
      (startup_event emptyDB).participants := by
  have h1 := claim_success_frame.1 (startup_event emptyDB) "Chess Club"
    "new@mergington.edu"
    (⟨1, "Chess Club", "Learn strategies and compete in chess tournaments",
      "Fridays, 3:30 PM - 5:00 PM", 12⟩ : Activity)
    ("Signed up " ++ "new@mergington.edu" ++ " for " ++ "Chess Club")
    (signup_for_activity (startup_event emptyDB) "Chess Club"
      "new@mergington.edu").2 (by decide) rfl
  have h2 := claim_success_frame.2 (startup_event emptyDB) "Chess Club"
    "michael@mergington.edu"
    (⟨1, "Chess Club", "Learn strategies and compete in chess tournaments",
      "Fridays, 3:30 PM - 5:00 PM", 12⟩ : Activity)
    ("Unregistered " ++ "michael@mergington.edu" ++ " from " ++ "Chess Club")
    (unregister_from_activity (startup_event emptyDB) "Chess Club"
      "michael@mergington.edu").2 (by decide) rfl
  exact ⟨h1.1, h1.2.1 (8, "james@mergington.edu") (by decide), h2.2.1⟩

end Mergington
